import Mathlib

/-!
Verification of `denonavr/soundmode.py` (sound-mode resolution, update and
command dispatch for Denon AVR receivers).

The Python module is embedded shallowly:

* Python (ordered) `dict`s become association lists (`alookup` / `ainsert`),
  which mirror CPython's insertion-ordered semantics: assignment to an
  existing key updates the value in place, assignment to a fresh key
  appends at the end.
* `str.upper()` becomes `upper` (ASCII case mapping, which is what every
  string handled by this module uses).
* The mutable resolver object becomes an explicit `SoundModeState` record
  threaded through the operations.
* `async` methods become pure functions returning, next to the result and
  the updated state, the list of transport calls (`Call`) they issued, so
  that claims about which commands reach the device can be stated.
* Exceptions become `Except AvrError`; `AvrProcessingError` is
  `AvrError.processing`.
-/

namespace DenonAVR

/-- Python `str.upper()` on a single character (ASCII range, which covers all
sound-mode strings handled by the module). -/
def upperChar (c : Char) : Char :=
  if 97 ≤ c.toNat ∧ c.toNat ≤ 122 then Char.ofNat (c.toNat - 32) else c

/-- Python `str.upper()`. -/
def upper (s : String) : String :=
  ⟨s.data.map upperChar⟩

/-- Python `str.rstrip()` (trailing whitespace removed). -/
def rstrip (s : String) : String :=
  ⟨(s.data.reverse.dropWhile Char.isWhitespace).reverse⟩

/-- `rstrip_string` from soundmode.py: `None`-tolerant trailing strip. -/
def rstrip_string : Option String → Option String
  | none => none
  | some v => some (rstrip v)

/-- Lookup in a Python dict modelled as an association list. -/
def alookup {β : Type} : List (String × β) → String → Option β
  | [], _ => none
  | (k', v) :: t, k => if k' = k then some v else alookup t k

/-- Assignment `d[k] = v` on a Python dict modelled as an association list:
update in place when the key exists, append otherwise. -/
def ainsert {β : Type} : List (String × β) → String → β → List (String × β)
  | [], k, v => [(k, v)]
  | (k', v') :: t, k, v =>
      if k' = k then (k, v) :: t else (k', v') :: ainsert t k v

/-- The keys of a Python dict modelled as an association list. -/
def akeys {β : Type} (l : List (String × β)) : List String :=
  l.map Prod.fst

/-- `sound_mode_rev_map_factory` from soundmode.py: reverse the
mode-name → raw-alias-list structure into uppercased-raw-alias → mode-name,
later entries overwriting earlier ones at the same key. -/
def sound_mode_rev_map_factory (sound_mode_map : List (String × List String)) :
    List (String × String) :=
  sound_mode_map.foldl
    (fun mode_map_rev p =>
      p.2.foldl (fun rev raw_mode => ainsert rev (upper raw_mode) p.1) mode_map_rev)
    []

/-- The mutable fields of `DenonAVRSoundMode`. -/
structure SoundModeState where
  support_sound_mode : Option Bool
  sound_mode_raw : Option String
  sound_mode_map : List (String × List String)
  sound_mode_map_rev : List (String × String)
deriving Repr, DecidableEq

/-- `match_sound_mode` from soundmode.py.  Returns the matched mode (or
`none` when no raw state has been observed) together with the possibly
self-extended state.  On a miss the uppercased raw string is registered as a
new mode, the reverse map is rebuilt, and the raw argument itself
(`return sound_mode_raw`, not uppercased) is returned. -/
def match_sound_mode (s : SoundModeState) (sound_mode_raw : String) :
    Option String × SoundModeState :=
  match s.sound_mode_raw with
  | none => (none, s)
  | some _ =>
    match alookup s.sound_mode_map_rev (upper sound_mode_raw) with
    | some sound_mode => (some sound_mode, s)
    | none =>
      let smr_up := upper sound_mode_raw
      let map' := ainsert s.sound_mode_map smr_up [smr_up]
      (some sound_mode_raw,
        { s with sound_mode_map := map',
                 sound_mode_map_rev := sound_mode_rev_map_factory map' })

/-- The `sound_mode` property: `match_sound_mode(self._sound_mode_raw)`.
When `_sound_mode_raw` is `None` the guard inside `match_sound_mode` returns
`None` immediately, which the first arm reproduces. -/
def sound_mode (s : SoundModeState) : Option String × SoundModeState :=
  match s.sound_mode_raw with
  | none => (none, s)
  | some raw => match_sound_mode s raw

/-- The fields of the device context (`self._device`) that soundmode.py
reads: the update-strategy capability flag and the command URLs. -/
structure Device where
  use_avr_2016_update : Option Bool
  url_status : String
  url_mainzone : String
  command_sel_sound_mode : String
  command_set_all_zone_stereo : String
deriving Repr, DecidableEq

/-- Modelled from the spec: the constant `ALL_ZONE_STEREO` lives in the
absent `const.py`; the spec names the pseudo-mode `"ALL ZONE STEREO"`. -/
def ALL_ZONE_STEREO : String := "ALL ZONE STEREO"

/-- A transport/network call issued by the resolver. -/
inductive Call where
  | appcommand
  | statusXml (xmlPath : String) (urls : List String)
  | getCommand (command_url : String)
deriving Repr, DecidableEq

/-- Exceptions reaching soundmode.py: `AvrProcessingError` and everything
else (network/transport failures), which it never catches. -/
inductive AvrError where
  | processing (msg : String)
  | transport
deriving Repr, DecidableEq

/-- Outcome of one transport fetch, supplied as an oracle parameter. -/
inductive FetchOutcome where
  | success (value : Option String)
  | processingError
  | transportError
deriving Repr, DecidableEq

/-- Modelled from the spec: `async_update_attrs_status_xml` lives in the
absent `foundation.py`.  Per the spec's status-page transport contract it
fetches the XML path from the candidate URLs and stores the parsed value in
`_sound_mode_raw` (through the `rstrip_string` converter) on success, fails
with a processing error when no path resolves (state unchanged), and lets
any other transport failure propagate. -/
def async_update_attrs_status_xml (s : SoundModeState) (xmlPath : String)
    (urls : List String) (outcome : FetchOutcome) :
    Except AvrError SoundModeState × List Call :=
  (match outcome with
   | .success v => .ok { s with sound_mode_raw := rstrip_string v }
   | .processingError => .error (.processing "status xml tag not found")
   | .transportError => .error .transport,
   [.statusXml xmlPath urls])

/-- Modelled from the spec: `async_update_attrs_appcommand` lives in the
absent `foundation.py`.  Per the spec's command-aggregation transport
contract it queries the watched tag and stores the parsed value in
`_sound_mode_raw` (through the `rstrip_string` converter) on success; any
failure propagates. -/
def async_update_attrs_appcommand (s : SoundModeState) (outcome : FetchOutcome) :
    Except AvrError SoundModeState × List Call :=
  (match outcome with
   | .success v => .ok { s with sound_mode_raw := rstrip_string v }
   | .processingError => .error (.processing "appcommand update failed")
   | .transportError => .error .transport,
   [.appcommand])

/-- `async_update_sound_mode` from soundmode.py.  The three `FetchOutcome`
oracles stand for the appcommand query, the schema-#1 status fetch
(`./selectSurround/value`) and the schema-#2 status fetch
(`./SurrMode/value`); only the ones the control flow reaches are consulted,
and the returned call list records the transport calls actually made. -/
def async_update_sound_mode (d : Device) (s : SoundModeState)
    (appOutcome statusOutcome1 statusOutcome2 : FetchOutcome) :
    Except AvrError SoundModeState × List Call :=
  match d.use_avr_2016_update with
  | some true => async_update_attrs_appcommand s appOutcome
  | some false =>
    let urls := [d.url_status, d.url_mainzone]
    if s.support_sound_mode = some false then (.ok s, [])
    else
      match async_update_attrs_status_xml s "./selectSurround/value" urls statusOutcome1 with
      | (.ok s1, c1) => (.ok { s1 with support_sound_mode := some true }, c1)
      | (.error (.processing _), c1) =>
        match async_update_attrs_status_xml s "./SurrMode/value" urls statusOutcome2 with
        | (.ok s2, c2) => (.ok { s2 with support_sound_mode := some true }, c1 ++ c2)
        | (.error (.processing _), c2) =>
            (.ok { s with support_sound_mode := some false }, c1 ++ c2)
        | (.error e, c2) => (.error e, c1 ++ c2)
      | (.error e, c1) => (.error e, c1)
  | none =>
    (.error (.processing "Device is not setup correctly, update method not set"), [])

/-- `_async_set_all_zone_stereo` from soundmode.py: build the command URL
from the device prefix plus `"ZST ON"` / `"ZST OFF"` and issue it.  It does
not touch the resolver state. -/
def _async_set_all_zone_stereo (d : Device) (zst_on : Bool) : List Call :=
  let command_url :=
    d.command_set_all_zone_stereo ++ (if zst_on then "ZST ON" else "ZST OFF")
  [.getCommand command_url]

/-- `async_set_sound_mode` from soundmode.py.  For the all-zone-stereo
pseudo-mode only the ZST ON command is issued.  Otherwise the guard
`if self.sound_mode == ALL_ZONE_STEREO:` evaluates the `sound_mode`
property (whose self-extension effect on the state is kept), but its body
`self._async_set_all_zone_stereo(False)` lacks an `await`: the coroutine it
creates is never executed, so no ZST OFF command reaches the transport and
only the generic mode-select command is issued. -/
def async_set_sound_mode (d : Device) (s : SoundModeState) (target : String) :
    SoundModeState × List Call :=
  if target = ALL_ZONE_STEREO then
    (s, _async_set_all_zone_stereo d true)
  else
    let current := sound_mode s
    (current.2, [.getCommand (d.command_sel_sound_mode ++ target)])

/-- One step of the factory: fold one mode-map entry into the reverse map. -/
def revInsertEntry (mode_map_rev : List (String × String)) (p : String × List String) :
    List (String × String) :=
  p.2.foldl (fun rev raw_mode => ainsert rev (upper raw_mode) p.1) mode_map_rev

/-- Uppercased raw aliases of distinct mode-map entries never collide. -/
def aliasDisjoint (l : List (String × List String)) : Prop :=
  l.Pairwise (fun p q => ∀ r ∈ p.2, ∀ r' ∈ q.2, upper r ≠ upper r')

instance (l : List (String × List String)) : Decidable (aliasDisjoint l) := by
  unfold aliasDisjoint
  exact List.instDecidablePairwise l

/-- A well-formed resolver state: mode-map keys are duplicate-free,
uppercased aliases of distinct entries never collide (the spec's
"strict 1:1 from raw alias to its owning normalized mode"), and the reverse
map is exactly the one the factory derives from the mode map. -/
def WF (s : SoundModeState) : Prop :=
  (akeys s.sound_mode_map).Nodup ∧ aliasDisjoint s.sound_mode_map ∧
    s.sound_mode_map_rev = sound_mode_rev_map_factory s.sound_mode_map

instance (s : SoundModeState) : Decidable (WF s) := by
  unfold WF
  infer_instance

/-- The reverse-index invariant of the spec: every registered raw alias,
uppercased, maps back to its owning normalized mode. -/
def revIndexInvariant (s : SoundModeState) : Prop :=
  ∀ p ∈ s.sound_mode_map, ∀ r ∈ p.2,
    alookup s.sound_mode_map_rev (upper r) = some p.1

instance (s : SoundModeState) : Decidable (revIndexInvariant s) := by
  unfold revIndexInvariant
  infer_instance

/-- Modelled from the spec: a representative sample of the seed table
`SOUND_MODE_MAPPING` (the full table lives in the absent `const.py`; the
spec fixes only its shape — ordered map from normalized mode name to raw
alias list, with each raw alias owned by exactly one mode). -/
def seedMap : List (String × List String) :=
  [("MUSIC", ["PLII MUSIC", "PLIIX MUSIC"]),
   ("MOVIE", ["PLII MOVIE", "PLIIX MOVIE"]),
   ("STEREO", ["STEREO"]),
   ("ALL ZONE STEREO", ["ALL ZONE STEREO"])]

/-- A device on the legacy (status-page) update path. -/
def exampleDevice : Device :=
  { use_avr_2016_update := some false
    url_status := "/goform/formMainZone_MainZoneXmlStatus.xml"
    url_mainzone := "/goform/formMainZone_MainZoneXml.xml"
    command_sel_sound_mode := "/goform/formiPhoneAppDirect.xml?MS"
    command_set_all_zone_stereo := "/goform/formiPhoneAppDirect.xml?MN" }

/-- A resolver state after a successful update observed `"PLII MOVIE"`. -/
def exampleState : SoundModeState :=
  { support_sound_mode := some true
    sound_mode_raw := some "PLII MOVIE"
    sound_mode_map := seedMap
    sound_mode_map_rev := sound_mode_rev_map_factory seedMap }

/-- The same resolver before any raw state has been observed. -/
def noRawState : SoundModeState :=
  { exampleState with sound_mode_raw := none }

/-- A resolver state whose current raw mode is the all-zone-stereo one. -/
def azsState : SoundModeState :=
  { exampleState with sound_mode_raw := some "ALL ZONE STEREO" }

/-! ### Helper lemmas about the ASCII upper-casing -/

theorem toNat_ofNat_of_valid (n : Nat) (h : n.isValidChar) :
    (Char.ofNat n).toNat = n := by
  rw [Char.ofNat, dif_pos h]
  rfl

theorem upperChar_idem (c : Char) : upperChar (upperChar c) = upperChar c := by
  unfold upperChar
  by_cases h : 97 ≤ c.toNat ∧ c.toNat ≤ 122
  · rw [if_pos h]
    have hv : (c.toNat - 32).isValidChar := Or.inl (by omega)
    have ht : (Char.ofNat (c.toNat - 32)).toNat = c.toNat - 32 :=
      toNat_ofNat_of_valid _ hv
    rw [if_neg]
    rw [ht]
    omega
  · rw [if_neg h, if_neg h]

theorem map_upperChar_idem (l : List Char) :
    (l.map upperChar).map upperChar = l.map upperChar := by
  induction l with
  | nil => rfl
  | cons c t ih => simp [upperChar_idem, ih]

theorem upper_idem (s : String) : upper (upper s) = upper s := by
  show String.mk ((s.data.map upperChar).map upperChar) = String.mk (s.data.map upperChar)
  rw [map_upperChar_idem]

/-! ### Helper lemmas about the dict model -/

theorem alookup_ainsert_self {β : Type} (l : List (String × β)) (k : String) (v : β) :
    alookup (ainsert l k v) k = some v := by
  induction l with
  | nil => simp [ainsert, alookup]
  | cons p t ih =>
    obtain ⟨k', v'⟩ := p
    by_cases h : k' = k
    · simp [ainsert, alookup, h]
    · simp [ainsert, alookup, h, ih]

theorem alookup_ainsert_ne {β : Type} (l : List (String × β)) (k k' : String) (v : β)
    (h : k ≠ k') : alookup (ainsert l k v) k' = alookup l k' := by
  induction l with
  | nil => simp [ainsert, alookup, h]
  | cons p t ih =>
    obtain ⟨k0, v0⟩ := p
    by_cases h0 : k0 = k
    · subst h0
      simp [ainsert, alookup, h]
    · simp only [ainsert, if_neg h0]
      by_cases h1 : k0 = k'
      · simp [alookup, h1]
      · simp [alookup, h1, ih]

theorem mem_ainsert_self {β : Type} (l : List (String × β)) (k : String) (v : β) :
    (k, v) ∈ ainsert l k v := by
  induction l with
  | nil => simp [ainsert]
  | cons p t ih =>
    obtain ⟨k0, v0⟩ := p
    by_cases h0 : k0 = k
    · simp [ainsert, h0]
    · simp [ainsert, h0, ih]

theorem mem_ainsert {β : Type} (l : List (String × β)) (k : String) (v : β) (p : String × β)
    (hp : p ∈ ainsert l k v) : p = (k, v) ∨ p ∈ l := by
  induction l with
  | nil => simpa [ainsert] using hp
  | cons q t ih =>
    obtain ⟨k0, v0⟩ := q
    by_cases h0 : k0 = k
    · simp only [ainsert, if_pos h0] at hp
      rcases List.mem_cons.mp hp with h | h
      · exact Or.inl h
      · exact Or.inr (List.mem_cons_of_mem _ h)
    · simp only [ainsert, if_neg h0] at hp
      rcases List.mem_cons.mp hp with h | h
      · exact Or.inr (h ▸ List.mem_cons_self _ _)
      · rcases ih h with h' | h'
        · exact Or.inl h'
        · exact Or.inr (List.mem_cons_of_mem _ h')

theorem akeys_ainsert {β : Type} (l : List (String × β)) (k : String) (v : β) :
    akeys (ainsert l k v) = if k ∈ akeys l then akeys l else akeys l ++ [k] := by
  induction l with
  | nil => simp [ainsert, akeys]
  | cons p t ih =>
    obtain ⟨k0, v0⟩ := p
    by_cases h0 : k0 = k
    · simp [ainsert, akeys, h0]
    · have hne : ¬ k = k0 := fun h => h0 h.symm
      by_cases hk : k ∈ akeys t
      · simp only [akeys, List.map] at ih hk ⊢
        simp [ainsert, h0, hk, hne, ih]
      · simp only [akeys, List.map] at ih hk ⊢
        simp [ainsert, h0, hk, hne, ih]

theorem akeys_ainsert_nodup {β : Type} (l : List (String × β)) (k : String) (v : β)
    (h : (akeys l).Nodup) : (akeys (ainsert l k v)).Nodup := by
  rw [akeys_ainsert]
  by_cases hk : k ∈ akeys l
  · simpa [hk] using h
  · simp only [hk, if_false]
    simpa [List.nodup_append] using ⟨h, hk⟩

/-! ### Helper lemmas about the reverse-map factory -/

theorem factory_eq_foldl (l : List (String × List String)) :
    sound_mode_rev_map_factory l = l.foldl revInsertEntry [] := rfl

theorem alookup_revInsertEntry (p : String × List String)
    (rev : List (String × String)) (k : String) :
    alookup (revInsertEntry rev p) k =
      if k ∈ p.2.map upper then some p.1 else alookup rev k := by
  obtain ⟨m, aliases⟩ := p
  induction aliases generalizing rev with
  | nil => simp [revInsertEntry]
  | cons a t ih =>
    show alookup (revInsertEntry (ainsert rev (upper a) m) (m, t)) k = _
    rw [ih]
    by_cases hk : k ∈ t.map upper
    · simp [hk]
    · by_cases ha : k = upper a
      · simp [hk, ha, alookup_ainsert_self]
      · have : upper a ≠ k := fun h => ha h.symm
        simp [hk, ha, alookup_ainsert_ne _ _ _ _ this]

theorem alookup_foldl_revInsert_not_written (l : List (String × List String))
    (rev : List (String × String)) (k : String)
    (h : ∀ p ∈ l, k ∉ p.2.map upper) :
    alookup (l.foldl revInsertEntry rev) k = alookup rev k := by
  induction l generalizing rev with
  | nil => rfl
  | cons q t ih =>
    rw [List.foldl_cons, ih _ (fun p hp => h p (List.mem_cons_of_mem _ hp)),
      alookup_revInsertEntry, if_neg (h q (List.mem_cons_self _ _))]

theorem alookup_foldl_revInsert_isSome (l : List (String × List String))
    (rev : List (String × String)) (k : String)
    (h : (alookup rev k).isSome) :
    (alookup (l.foldl revInsertEntry rev) k).isSome := by
  induction l generalizing rev with
  | nil => exact h
  | cons q t ih =>
    rw [List.foldl_cons]
    apply ih
    rw [alookup_revInsertEntry]
    by_cases hk : k ∈ q.2.map upper
    · simp [hk]
    · simpa [hk] using h

theorem factory_lookup_mem_aux (l : List (String × List String)) :
    ∀ (rev : List (String × String)), aliasDisjoint l →
      ∀ p ∈ l, ∀ r ∈ p.2,
        alookup (l.foldl revInsertEntry rev) (upper r) = some p.1 := by
  induction l with
  | nil =>
    intro rev _ p hp
    cases hp
  | cons q t ih =>
    intro rev hd p hp r hr
    rw [List.foldl_cons]
    rcases List.mem_cons.mp hp with h | h
    · subst h
      rw [alookup_foldl_revInsert_not_written]
      · rw [alookup_revInsertEntry, if_pos (List.mem_map_of_mem upper hr)]
      · intro q' hq' hk
        rcases List.mem_map.mp hk with ⟨r', hr', hur⟩
        exact (List.pairwise_cons.mp hd).1 q' hq' r hr r' hr' hur.symm
    · exact ih _ (List.pairwise_cons.mp hd).2 p h r hr

theorem factory_lookup_mem (l : List (String × List String)) (hd : aliasDisjoint l)
    (p : String × List String) (hp : p ∈ l) (r : String) (hr : r ∈ p.2) :
    alookup (sound_mode_rev_map_factory l) (upper r) = some p.1 := by
  rw [factory_eq_foldl]
  exact factory_lookup_mem_aux l [] hd p hp r hr

theorem factory_lookup_none (l : List (String × List String)) (k : String)
    (h : alookup (sound_mode_rev_map_factory l) k = none) :
    ∀ p ∈ l, ∀ r ∈ p.2, upper r ≠ k := by
  intro p hp r hr hk
  subst hk
  rcases List.append_of_mem hp with ⟨l1, l2, rfl⟩
  rw [factory_eq_foldl, List.foldl_append, List.foldl_cons] at h
  have hsome : (alookup (l2.foldl revInsertEntry
      (revInsertEntry (l1.foldl revInsertEntry []) p)) (upper r)).isSome := by
    apply alookup_foldl_revInsert_isSome
    rw [alookup_revInsertEntry, if_pos (List.mem_map_of_mem upper hr)]
    rfl
  rw [h] at hsome
  cases hsome

theorem ainsert_pairwise {β : Type} {R : (String × β) → (String × β) → Prop}
    {l : List (String × β)} {k : String} {v : β}
    (hnd : (akeys l).Nodup) (hl : l.Pairwise R)
    (h : ∀ q ∈ l, q.1 ≠ k → R (k, v) q ∧ R q (k, v)) :
    (ainsert l k v).Pairwise R := by
  induction l with
  | nil => simp [ainsert]
  | cons q t ih =>
    obtain ⟨k0, v0⟩ := q
    rcases List.pairwise_cons.mp hl with ⟨hhead, htail⟩
    by_cases h0 : k0 = k
    · subst h0
      simp only [ainsert, if_pos rfl]
      apply List.pairwise_cons.mpr
      refine ⟨fun q' hq' => ?_, htail⟩
      have hq'ne : q'.1 ≠ k0 := by
        intro hk
        have : k0 ∈ akeys t := hk ▸ List.mem_map_of_mem Prod.fst hq'
        exact (List.nodup_cons.mp (by simpa [akeys] using hnd)).1 this
      exact (h q' (List.mem_cons_of_mem _ hq') hq'ne).1
    · simp only [ainsert, if_neg h0]
      apply List.pairwise_cons.mpr
      constructor
      · intro q' hq'
        rcases mem_ainsert t k v q' hq' with h' | h'
        · subst h'
          exact (h (k0, v0) (List.mem_cons_self _ _) h0).2
        · exact hhead q' h'
      · exact ih (by simpa [akeys] using (List.nodup_cons.mp (by simpa [akeys] using hnd)).2)
          htail (fun q' hq' hne => h q' (List.mem_cons_of_mem _ hq') hne)

/-! ### Well-formedness of resolver states -/

theorem WF_revIndexInvariant (s : SoundModeState) (h : WF s) : revIndexInvariant s := by
  intro p hp r hr
  rw [h.2.2]
  exact factory_lookup_mem _ h.2.1 p hp r hr

theorem WF_of_same_maps (s s' : SoundModeState)
    (hmap : s'.sound_mode_map = s.sound_mode_map)
    (hrev : s'.sound_mode_map_rev = s.sound_mode_map_rev)
    (h : WF s) : WF s' := by
  unfold WF
  rw [hmap, hrev]
  exact h

theorem match_sound_mode_preserves_WF (s : SoundModeState) (x : String)
    (h : WF s) : WF (match_sound_mode s x).2 := by
  unfold match_sound_mode
  cases hraw : s.sound_mode_raw with
  | none => exact h
  | some raw0 =>
    cases hlook : alookup s.sound_mode_map_rev (upper x) with
    | some m => exact h
    | none =>
      have hnone : ∀ p ∈ s.sound_mode_map, ∀ r ∈ p.2, upper r ≠ upper x :=
        factory_lookup_none _ _ (h.2.2 ▸ hlook)
      refine ⟨akeys_ainsert_nodup _ _ _ h.1, ?_, rfl⟩
      apply ainsert_pairwise h.1 h.2.1
      intro q hq _
      constructor
      · intro r hrm r' hr'
        have hrx : r = upper x := List.mem_singleton.mp hrm
        subst hrx
        rw [upper_idem]
        exact fun hc => hnone q hq r' hr' hc.symm
      · intro r hrm r' hr'
        have hrx : r' = upper x := List.mem_singleton.mp hr'
        subst hrx
        rw [upper_idem]
        exact hnone q hq r hrm

/-! ### Claim theorems -/

/-- C10: whenever no raw state has been observed (`_sound_mode_raw` is
`None`), `match_sound_mode` returns `None` for every input string and
leaves the state untouched (no self-extension), and the `sound_mode`
property likewise returns `None` with the state untouched. -/
theorem C10_match_absent_raw (s : SoundModeState) (x : String)
    (h : s.sound_mode_raw = none) :
    match_sound_mode s x = (none, s) ∧ sound_mode s = (none, s) := by
  constructor <;> simp [match_sound_mode, sound_mode, h]

/-- C10 witness: the theorem applied to a concrete raw-state-free resolver
and a registered alias. -/
theorem C10_match_absent_raw_witness :
    noRawState.sound_mode_raw = none ∧
    (match_sound_mode noRawState "PLII MUSIC" = (none, noRawState) ∧
      sound_mode noRawState = (none, noRawState)) :=
  ⟨by decide, C10_match_absent_raw noRawState "PLII MUSIC" (by decide)⟩

/-- C4: with the update-strategy capability flag unset (`None`),
`async_update_sound_mode` raises the configuration `AvrProcessingError`
("Device is not setup correctly, update method not set") and performs no
transport call, whatever the state and the transport oracles. -/
theorem C4_unset_flag_config_error (d : Device) (s : SoundModeState)
    (o1 o2 o3 : FetchOutcome) (hd : d.use_avr_2016_update = none) :
    async_update_sound_mode d s o1 o2 o3 =
      (Except.error (AvrError.processing
        "Device is not setup correctly, update method not set"), []) := by
  simp [async_update_sound_mode, hd]

/-- C4 witness: the theorem applied to a concrete unset-flag device. -/
theorem C4_unset_flag_config_error_witness :
    ({ exampleDevice with use_avr_2016_update := none } : Device).use_avr_2016_update
        = none ∧
    async_update_sound_mode { exampleDevice with use_avr_2016_update := none }
        exampleState .processingError .processingError .processingError =
      (Except.error (AvrError.processing
        "Device is not setup correctly, update method not set"), []) :=
  ⟨by decide,
    C4_unset_flag_config_error { exampleDevice with use_avr_2016_update := none }
      exampleState .processingError .processingError .processingError (by decide)⟩

/-- C6: on the legacy path (`use_avr_2016_update` false) with the support
flag already false, `async_update_sound_mode` returns immediately with the
state unchanged and performs no transport call. -/
theorem C6_unsupported_short_circuits (d : Device) (s : SoundModeState)
    (o1 o2 o3 : FetchOutcome) (hd : d.use_avr_2016_update = some false)
    (hs : s.support_sound_mode = some false) :
    async_update_sound_mode d s o1 o2 o3 = (Except.ok s, []) := by
  simp [async_update_sound_mode, hd, hs]

/-- C6 witness: the theorem applied to a concrete unsupported legacy state. -/
theorem C6_unsupported_short_circuits_witness :
    exampleDevice.use_avr_2016_update = some false ∧
    ({ exampleState with support_sound_mode := some false } :
        SoundModeState).support_sound_mode = some false ∧
    async_update_sound_mode exampleDevice
        { exampleState with support_sound_mode := some false }
        .transportError .transportError .transportError =
      (Except.ok { exampleState with support_sound_mode := some false }, []) :=
  ⟨by decide, by decide,
    C6_unsupported_short_circuits exampleDevice
      { exampleState with support_sound_mode := some false }
      .transportError .transportError .transportError (by decide) (by decide)⟩

/-- C3: on the legacy path (`use_avr_2016_update` false), when both
status-page schema fetches fail with the processing (schema-mismatch)
error, `async_update_sound_mode` returns normally (no exception), with the
support flag false and the stored raw mode unchanged. -/
theorem C3_both_schemas_fail (d : Device) (s : SoundModeState)
    (appOutcome : FetchOutcome) (hd : d.use_avr_2016_update = some false) :
    ∃ s', (async_update_sound_mode d s appOutcome
        .processingError .processingError).1 = Except.ok s' ∧
      s'.support_sound_mode = some false ∧
      s'.sound_mode_raw = s.sound_mode_raw := by
  by_cases hs : s.support_sound_mode = some false
  · exact ⟨s, by simp [async_update_sound_mode, hd, hs], hs, rfl⟩
  · refine ⟨{ s with support_sound_mode := some false }, ?_, rfl, rfl⟩
    simp [async_update_sound_mode, async_update_attrs_status_xml, hd, hs]

/-- C3 witness: the theorem applied to a concrete legacy device and a state
still marked as supported. -/
theorem C3_both_schemas_fail_witness :
    exampleDevice.use_avr_2016_update = some false ∧
    ∃ s', (async_update_sound_mode exampleDevice exampleState .processingError
        .processingError .processingError).1 = Except.ok s' ∧
      s'.support_sound_mode = some false ∧
      s'.sound_mode_raw = exampleState.sound_mode_raw :=
  ⟨by decide,
    C3_both_schemas_fail exampleDevice exampleState .processingError (by decide)⟩

/-- C7: `async_set_sound_mode` on exactly the all-zone-stereo pseudo-mode
issues exactly one command, the all-zone-stereo command URL ending in
`"ZST ON"`, leaves the state unchanged, and never reaches the generic
mode-select path. -/
theorem C7_all_zone_stereo_on (d : Device) (s : SoundModeState) :
    async_set_sound_mode d s ALL_ZONE_STEREO =
      (s, [Call.getCommand (d.command_set_all_zone_stereo ++ "ZST ON")]) ∧
    (async_set_sound_mode d s ALL_ZONE_STEREO).2.length = 1 ∧
    ∃ p, d.command_set_all_zone_stereo ++ "ZST ON" = p ++ "ZST ON" := by
  refine ⟨?_, ?_, ⟨d.command_set_all_zone_stereo, rfl⟩⟩ <;>
    simp [async_set_sound_mode, _async_set_all_zone_stereo]

/-- C2: evaluation at the failing input.  With the current resolved mode
equal to the all-zone-stereo pseudo-mode and a different target, the only
transport command issued is the generic mode-select one: the ZST OFF
command never reaches the transport, because line 226 of soundmode.py
calls `self._async_set_all_zone_stereo(False)` without `await`, so the
coroutine it creates is never executed. -/
theorem C2_missing_await_evaluation :
    (sound_mode azsState).1 = some ALL_ZONE_STEREO ∧
    "STEREO" ≠ ALL_ZONE_STEREO ∧
    (async_set_sound_mode exampleDevice azsState "STEREO").2 =
      [Call.getCommand (exampleDevice.command_sel_sound_mode ++ "STEREO")] ∧
    ∀ c ∈ (async_set_sound_mode exampleDevice azsState "STEREO").2,
      c ≠ Call.getCommand (exampleDevice.command_set_all_zone_stereo ++ "ZST OFF") := by
  decide

/-- C1 counterexample: for the raw string `"dolby surround"`, which is not
an alias of any mode-map entry, the first `match_sound_mode` call returns
the raw string itself (`"dolby surround"`), not its uppercasing
`"DOLBY SURROUND"`, and the second call returns the uppercased string, so
it differs from the first call's result. -/
theorem C1_counterexample :
    (∀ p ∈ exampleState.sound_mode_map, "dolby surround" ∉ p.2) ∧
    exampleState.sound_mode_raw ≠ none ∧
    (match_sound_mode exampleState "dolby surround").1 = some "dolby surround" ∧
    (match_sound_mode exampleState "dolby surround").1 ≠
      some (upper "dolby surround") ∧
    (match_sound_mode (match_sound_mode exampleState "dolby surround").2
        "dolby surround").1 = some "DOLBY SURROUND" ∧
    (match_sound_mode (match_sound_mode exampleState "dolby surround").2
        "dolby surround").1 ≠
      (match_sound_mode exampleState "dolby surround").1 := by
  decide

/-- C1 (amended): in a well-formed state with a stored raw mode, for a raw
string `x` matching no registered alias (its uppercasing is no key of the
reverse index), the first `match_sound_mode x` returns `x` itself (the raw
string, not uppercased) and registers a mode-map entry keyed `upper x`
whose alias list is exactly `[upper x]`, with the map keys staying
duplicate-free; a second `match_sound_mode x` hits that entry, returns
`upper x` and changes nothing. -/
theorem C1_self_extension (s : SoundModeState) (x raw0 : String)
    (hWF : WF s) (hraw : s.sound_mode_raw = some raw0)
    (hmiss : alookup s.sound_mode_map_rev (upper x) = none) :
    (match_sound_mode s x).1 = some x ∧
    alookup (match_sound_mode s x).2.sound_mode_map (upper x) = some [upper x] ∧
    (akeys (match_sound_mode s x).2.sound_mode_map).Nodup ∧
    match_sound_mode (match_sound_mode s x).2 x =
      (some (upper x), (match_sound_mode s x).2) := by
  have hstep : match_sound_mode s x =
      (some x,
        { s with
            sound_mode_map := ainsert s.sound_mode_map (upper x) [upper x],
            sound_mode_map_rev := sound_mode_rev_map_factory
              (ainsert s.sound_mode_map (upper x) [upper x]) }) := by
    simp [match_sound_mode, hraw, hmiss]
  have hWF' : WF (match_sound_mode s x).2 := match_sound_mode_preserves_WF s x hWF
  rw [hstep] at hWF'
  have hhit : alookup (sound_mode_rev_map_factory
      (ainsert s.sound_mode_map (upper x) [upper x])) (upper x) = some (upper x) := by
    have := factory_lookup_mem _ hWF'.2.1 (upper x, [upper x])
      (mem_ainsert_self _ _ _) (upper x) (List.mem_singleton.mpr rfl)
    rwa [upper_idem] at this
  refine ⟨by rw [hstep], ?_, ?_, ?_⟩
  · rw [hstep]
    exact alookup_ainsert_self _ _ _
  · rw [hstep]
    exact akeys_ainsert_nodup _ _ _ hWF.1
  · rw [hstep]
    simp [match_sound_mode, hraw, hhit]

/-- C1 witness: the amended theorem applied to a concrete well-formed state
and the unregistered raw string `"dolby digital"`. -/
theorem C1_self_extension_witness :
    WF exampleState ∧ exampleState.sound_mode_raw = some "PLII MOVIE" ∧
    alookup exampleState.sound_mode_map_rev (upper "dolby digital") = none ∧
    ((match_sound_mode exampleState "dolby digital").1 = some "dolby digital" ∧
      alookup (match_sound_mode exampleState "dolby digital").2.sound_mode_map
        (upper "dolby digital") = some [upper "dolby digital"] ∧
      (akeys (match_sound_mode exampleState "dolby digital").2.sound_mode_map).Nodup ∧
      match_sound_mode (match_sound_mode exampleState "dolby digital").2
          "dolby digital" =
        (some (upper "dolby digital"),
          (match_sound_mode exampleState "dolby digital").2)) :=
  ⟨by decide, by decide, by decide,
    C1_self_extension exampleState "dolby digital" "PLII MOVIE"
      (by decide) (by decide) (by decide)⟩

/-- C5 counterexample: in a resolver whose raw state is absent, a
registered alias does not match back to its mode — `match_sound_mode`
returns `None` — so the claim fails without the stored-raw-mode premise. -/
theorem C5_counterexample :
    ("MUSIC", ["PLII MUSIC", "PLIIX MUSIC"]) ∈ noRawState.sound_mode_map ∧
    "PLII MUSIC" ∈ ["PLII MUSIC", "PLIIX MUSIC"] ∧
    (match_sound_mode noRawState "PLII MUSIC").1 ≠ some "MUSIC" := by
  decide

/-- C5 (amended): in a well-formed state (reverse index derived from the
mode map, each uppercased alias owned by one mode) with a stored raw mode
present, every raw alias `r` registered under mode `m` matches to `m`, and
so does its uppercasing: matching is case-insensitive. -/
theorem C5_alias_matching (s : SoundModeState) (raw0 m r : String)
    (aliases : List String) (hWF : WF s) (hraw : s.sound_mode_raw = some raw0)
    (hm : (m, aliases) ∈ s.sound_mode_map) (hr : r ∈ aliases) :
    (match_sound_mode s r).1 = some m ∧
    (match_sound_mode s (upper r)).1 = some m := by
  have h1 : alookup s.sound_mode_map_rev (upper r) = some m := by
    rw [hWF.2.2]
    exact factory_lookup_mem _ hWF.2.1 (m, aliases) hm r hr
  have h2 : alookup s.sound_mode_map_rev (upper (upper r)) = some m := by
    rw [upper_idem]
    exact h1
  constructor <;> simp [match_sound_mode, hraw, h1, h2]

/-- C5 witness: the amended theorem applied to the mixed-case alias
`"PLIIx Music"` — registered (case-insensitively) under `"MUSIC"`. -/
theorem C5_alias_matching_witness :
    WF exampleState ∧ exampleState.sound_mode_raw = some "PLII MOVIE" ∧
    ("MUSIC", ["PLII MUSIC", "PLIIX MUSIC"]) ∈ exampleState.sound_mode_map ∧
    "PLIIX MUSIC" ∈ ["PLII MUSIC", "PLIIX MUSIC"] ∧
    ((match_sound_mode exampleState "PLIIX MUSIC").1 = some "MUSIC" ∧
      (match_sound_mode exampleState (upper "PLIIX MUSIC")).1 = some "MUSIC") :=
  ⟨by decide, by decide, by decide, by decide,
    C5_alias_matching exampleState "PLII MOVIE" "MUSIC" "PLIIX MUSIC"
      ["PLII MUSIC", "PLIIX MUSIC"] (by decide) (by decide) (by decide) (by decide)⟩

theorem update_preserves_maps (d : Device) (s : SoundModeState)
    (o1 o2 o3 : FetchOutcome) (s' : SoundModeState)
    (h : (async_update_sound_mode d s o1 o2 o3).1 = Except.ok s') :
    s'.sound_mode_map = s.sound_mode_map ∧
    s'.sound_mode_map_rev = s.sound_mode_map_rev := by
  rcases hd : d.use_avr_2016_update with _ | b
  · simp [async_update_sound_mode, hd] at h
  · cases b
    · by_cases hs : s.support_sound_mode = some false
      · simp [async_update_sound_mode, hd, hs] at h
        rw [← h]
        exact ⟨rfl, rfl⟩
      · cases o2 <;> cases o3 <;>
          simp [async_update_sound_mode, async_update_attrs_status_xml, hd, hs] at h <;>
          rw [← h] <;> exact ⟨rfl, rfl⟩
    · cases o1 <;>
        simp [async_update_sound_mode, async_update_attrs_appcommand, hd] at h
      rw [← h]
      exact ⟨rfl, rfl⟩

/-- C8: in every well-formed resolver state the reverse-index invariant
holds — every raw alias `r` stored under key `m` in the mode map satisfies
`ReverseIndex[upper r] = m` — and well-formedness (hence the invariant) is
preserved by every operation: `match_sound_mode` (including its
self-extension), the `sound_mode` property, `async_set_sound_mode`, and
every normal return of `async_update_sound_mode`. -/
theorem C8_rev_index_invariant (s : SoundModeState) (hWF : WF s) :
    revIndexInvariant s ∧
    (∀ x, WF (match_sound_mode s x).2) ∧
    WF (sound_mode s).2 ∧
    (∀ d target, WF (async_set_sound_mode d s target).1) ∧
    (∀ d o1 o2 o3 s',
      (async_update_sound_mode d s o1 o2 o3).1 = Except.ok s' → WF s') := by
  have hmatch : ∀ x, WF (match_sound_mode s x).2 :=
    fun x => match_sound_mode_preserves_WF s x hWF
  have hsm : WF (sound_mode s).2 := by
    unfold sound_mode
    cases hraw : s.sound_mode_raw with
    | none => exact hWF
    | some raw => exact hmatch raw
  refine ⟨WF_revIndexInvariant s hWF, hmatch, hsm, ?_, ?_⟩
  · intro d target
    unfold async_set_sound_mode
    by_cases ht : target = ALL_ZONE_STEREO
    · simpa [ht] using hWF
    · simpa [ht] using hsm
  · intro d o1 o2 o3 s' h
    obtain ⟨hmap, hrev⟩ := update_preserves_maps d s o1 o2 o3 s' h
    exact WF_of_same_maps s s' hmap hrev hWF

/-- C8 witness: the theorem applied to a concrete well-formed state; the
invariant holds there. -/
theorem C8_rev_index_invariant_witness :
    WF exampleState ∧ revIndexInvariant exampleState :=
  ⟨by decide, (C8_rev_index_invariant exampleState (by decide)).1⟩

end DenonAVR
